import Mathlib

/-!
# Verification of the AprilTag detection-quality analysis script

Shallow embedding of the program logic of the analysis script
(`analyze-quality.js` and its extended variant): the corner-distance metric
(`calculateCornerDistance`), the delta calculator (`calculateDeltas`), the
statistics aggregator (`calculateStats`), and the analysis driver (argument
resolution, RAW-file subset selection, per-quality/per-file processing,
missing-marker counting, temporary-file cleanup and the top-level error
handler).

JavaScript numbers are modelled as real numbers.  Array indexing is modelled
with Option-returning access so that out-of-bounds behaviour is explicit.
The statistics aggregator is defined over an arbitrary linear ordered field
(the program only uses ordered-field operations), which keeps it computable;
the theorems instantiate it at the reals.  External collaborators (RAW
decoding, JPEG encoding, marker detection, the file system) are modelled as
oracles supplied to the driver.
-/

open List

/-- A detection record as produced by the detection adapter:
`{ id: detection.id, corners: detection.corners }`, where `corners` is an
array of corner points and each corner point is an array of coordinates. -/
structure Detection where
  id : Int
  corners : List (List ℝ)

/-- The statistics record `{ min, mean, median, max }` returned by
`calculateStats`. -/
structure Stats (α : Type) where
  min : α
  mean : α
  median : α
  max : α
deriving DecidableEq

/-- Embedding of `calculateStats(deltas)`:

```js
if (deltas.length === 0) return { min: 0, mean: 0, median: 0, max: 0 };
const sorted = deltas.sort((a, b) => a - b);
const min = sorted[0];
const max = sorted[sorted.length - 1];
const mean = deltas.reduce((sum, val) => sum + val, 0) / deltas.length;
const median = sorted.length % 2 === 0
  ? (sorted[sorted.length / 2 - 1] + sorted[sorted.length / 2]) / 2
  : sorted[Math.floor(sorted.length / 2)];
return { min, mean, median, max };
```

`Array.prototype.sort` with the comparator `(a, b) => a - b` sorts the array
ascending (stably); it is modelled by insertion sort with `(· ≤ ·)`.  After
the `sort` call `deltas` aliases `sorted`, so the `reduce` in the `mean` line
runs over the sorted array; summation is permutation-invariant, so it is
written over the argument list here.  The in-place mutation of the caller's
array is modelled separately by `calculateStatsPost`.  In the non-empty
branch all the indices used are in bounds, so modelling `sorted[i]` by
`sorted.getD i 0` is exact. -/
def calculateStats {α : Type} [LinearOrderedField α] (deltas : List α) : Stats α :=
  if deltas.length = 0 then
    { min := 0, mean := 0, median := 0, max := 0 }
  else
    let sorted := deltas.insertionSort (· ≤ ·)
    let min := sorted.getD 0 0
    let max := sorted.getD (sorted.length - 1) 0
    let mean := (deltas.foldl (· + ·) 0) / (deltas.length : α)
    let median :=
      if sorted.length % 2 = 0 then
        (sorted.getD (sorted.length / 2 - 1) 0 + sorted.getD (sorted.length / 2) 0) / 2
      else
        sorted.getD (sorted.length / 2) 0
    { min := min, mean := mean, median := median, max := max }

/-- The caller's `deltas` array after a call to `calculateStats`:
`deltas.sort(...)` sorts the array in place, so unless the function returned
early on the empty array, the caller observes the ascending rearrangement of
the array it passed in. -/
def calculateStatsPost {α : Type} [LinearOrderedField α] (deltas : List α) : List α :=
  if deltas.length = 0 then deltas
  else deltas.insertionSort (· ≤ ·)

section StatsLemmas

variable {α : Type} [LinearOrderedField α]

lemma calculateStats_min (l : List α) (h : l ≠ []) :
    (calculateStats l).min = (l.insertionSort (· ≤ ·)).getD 0 0 := by
  simp [calculateStats, h]

lemma calculateStats_max (l : List α) (h : l ≠ []) :
    (calculateStats l).max =
      (l.insertionSort (· ≤ ·)).getD ((l.insertionSort (· ≤ ·)).length - 1) 0 := by
  simp [calculateStats, h]

lemma calculateStats_mean (l : List α) (h : l ≠ []) :
    (calculateStats l).mean = (l.foldl (· + ·) 0) / (l.length : α) := by
  simp [calculateStats, h]

lemma calculateStats_median (l : List α) (h : l ≠ []) :
    (calculateStats l).median =
      if (l.insertionSort (· ≤ ·)).length % 2 = 0 then
        ((l.insertionSort (· ≤ ·)).getD ((l.insertionSort (· ≤ ·)).length / 2 - 1) 0 +
          (l.insertionSort (· ≤ ·)).getD ((l.insertionSort (· ≤ ·)).length / 2) 0) / 2
      else
        (l.insertionSort (· ≤ ·)).getD ((l.insertionSort (· ≤ ·)).length / 2) 0 := by
  simp [calculateStats, h]

omit [LinearOrderedField α] in
lemma list_getD_eq_get {l : List α} {i : Nat} (h : i < l.length) (d : α) :
    l.getD i d = l.get ⟨i, h⟩ := by
  simp [List.getD_eq_getElem?_getD, List.getElem?_eq_getElem h]

lemma sorted_getD_mono {s : List α} (hs : s.Sorted (· ≤ ·)) {i j : Nat}
    (hij : i ≤ j) (hj : j < s.length) : s.getD i 0 ≤ s.getD j 0 := by
  have hi : i < s.length := lt_of_le_of_lt hij hj
  rw [list_getD_eq_get hi, list_getD_eq_get hj]
  exact hs.rel_get_of_le hij

lemma sorted_head_le_mem {s : List α} (hs : s.Sorted (· ≤ ·)) {x : α} (hx : x ∈ s) :
    s.getD 0 0 ≤ x := by
  obtain ⟨i, hi⟩ := List.mem_iff_get.mp hx
  have hpos : 0 < s.length := List.length_pos_of_mem hx
  rw [list_getD_eq_get hpos, ← hi]
  exact hs.rel_get_of_le (Fin.mk_le_mk.mpr (Nat.zero_le _))

lemma mem_le_sorted_last {s : List α} (hs : s.Sorted (· ≤ ·)) {x : α} (hx : x ∈ s) :
    x ≤ s.getD (s.length - 1) 0 := by
  obtain ⟨i, hi⟩ := List.mem_iff_get.mp hx
  have hpos : 0 < s.length := List.length_pos_of_mem hx
  rw [list_getD_eq_get (by omega : s.length - 1 < s.length), ← hi]
  exact hs.rel_get_of_le (by rw [Fin.le_def]; show i.val ≤ s.length - 1; have := i.isLt; omega)

end StatsLemmas

/-- C3: for the empty input list, `calculateStats` returns
`min = 0`, `mean = 0`, `median = 0`, `max = 0` exactly (the embedding is a
total function, so no error is raised). -/
theorem calculateStats_empty_zero :
    calculateStats ([] : List ℝ) = { min := 0, mean := 0, median := 0, max := 0 } := rfl

/-- C4: for every non-empty list of deltas, the median computed by
`calculateStats` is obtained by sorting the list ascending (formalised as:
for every ascending rearrangement `s` of the input) and taking the middle
element for odd length, and the arithmetic mean of the two middle elements
for even length; in particular the median of `[1,2,3,4]` is `2.5` and the
median of `[1,2,3]` is `2`. -/
theorem calculateStats_median_def :
    (∀ (l s : List ℝ), l ≠ [] → s.Perm l → s.Sorted (· ≤ ·) →
      (calculateStats l).median =
        if s.length % 2 = 1 then s.getD (s.length / 2) 0
        else (s.getD (s.length / 2 - 1) 0 + s.getD (s.length / 2) 0) / 2)
    ∧ (calculateStats ([1, 2, 3, 4] : List ℝ)).median = 5 / 2
    ∧ (calculateStats ([1, 2, 3] : List ℝ)).median = 2 := by
  refine ⟨?_, ?_, ?_⟩
  · intro l s hne hperm hsort
    have hs : s = l.insertionSort (· ≤ ·) :=
      List.eq_of_perm_of_sorted (hperm.trans (List.perm_insertionSort _ l).symm) hsort
        (List.sorted_insertionSort _ l)
    rw [calculateStats_median l hne, ← hs]
    rcases Nat.mod_two_eq_zero_or_one s.length with h2 | h2
    · rw [if_pos h2, if_neg (by omega)]
    · rw [if_neg (by omega), if_pos h2]
  · norm_num [calculateStats, List.insertionSort, List.orderedInsert]
  · norm_num [calculateStats, List.insertionSort, List.orderedInsert]

/-- Witness for C4: the median of `[2, 1]` is `1.5`, obtained by instantiating
the theorem at the sorted rearrangement `[1, 2]`. -/
theorem calculateStats_median_def_witness :
    (calculateStats ([2, 1] : List ℝ)).median = 3 / 2 := by
  have h := calculateStats_median_def.1 [2, 1] [1, 2] (by simp)
    (List.Perm.swap 2 1 []) (by simp [List.sorted_cons])
  rw [h]
  norm_num

/-- C5: for every non-empty list of deltas, the result of `calculateStats`
satisfies `min ≤ median ≤ max` and `min ≤ mean ≤ max`. -/
theorem calculateStats_bounds (l : List ℝ) (hne : l ≠ []) :
    (calculateStats l).min ≤ (calculateStats l).median ∧
    (calculateStats l).median ≤ (calculateStats l).max ∧
    (calculateStats l).min ≤ (calculateStats l).mean ∧
    (calculateStats l).mean ≤ (calculateStats l).max := by
  have hsort : (l.insertionSort (· ≤ ·)).Sorted (· ≤ ·) := List.sorted_insertionSort _ l
  have hperm : (l.insertionSort (· ≤ ·)).Perm l := List.perm_insertionSort _ l
  have hlen : (l.insertionSort (· ≤ ·)).length = l.length := hperm.length_eq
  have hpos : 0 < (l.insertionSort (· ≤ ·)).length := by
    rw [hlen]; exact List.length_pos.mpr hne
  rw [calculateStats_min l hne, calculateStats_max l hne, calculateStats_mean l hne,
    calculateStats_median l hne]
  set s := l.insertionSort (· ≤ ·) with hsdef
  have hmed_lo : s.getD 0 0 ≤
      (if s.length % 2 = 0 then
        (s.getD (s.length / 2 - 1) 0 + s.getD (s.length / 2) 0) / 2
      else s.getD (s.length / 2) 0) := by
    rcases Nat.mod_two_eq_zero_or_one s.length with h2 | h2
    · rw [if_pos h2]
      have ha := sorted_getD_mono hsort (Nat.zero_le (s.length / 2 - 1)) (by omega)
      have hb := sorted_getD_mono hsort (Nat.zero_le (s.length / 2)) (by omega)
      linarith
    · rw [if_neg (by omega)]
      exact sorted_getD_mono hsort (Nat.zero_le _) (by omega)
  have hmed_hi :
      (if s.length % 2 = 0 then
        (s.getD (s.length / 2 - 1) 0 + s.getD (s.length / 2) 0) / 2
      else s.getD (s.length / 2) 0) ≤ s.getD (s.length - 1) 0 := by
    rcases Nat.mod_two_eq_zero_or_one s.length with h2 | h2
    · rw [if_pos h2]
      have ha := sorted_getD_mono hsort (by omega : s.length / 2 - 1 ≤ s.length - 1) (by omega)
      have hb := sorted_getD_mono hsort (by omega : s.length / 2 ≤ s.length - 1) (by omega)
      linarith
    · rw [if_neg (by omega)]
      exact sorted_getD_mono hsort (by omega) (by omega)
  have hfold : l.foldl (· + ·) 0 = l.sum := List.sum_eq_foldl.symm
  have hlpos : (0 : ℝ) < (l.length : ℝ) := by
    have := List.length_pos.mpr hne
    exact_mod_cast this
  have hmean_lo : s.getD 0 0 ≤ (l.foldl (· + ·) 0) / (l.length : ℝ) := by
    rw [hfold, le_div_iff₀ hlpos]
    have := List.card_nsmul_le_sum l (s.getD 0 0)
      (fun x hx => sorted_head_le_mem hsort (hperm.mem_iff.mpr hx))
    rw [nsmul_eq_mul] at this
    linarith
  have hmean_hi : (l.foldl (· + ·) 0) / (l.length : ℝ) ≤ s.getD (s.length - 1) 0 := by
    rw [hfold, div_le_iff₀ hlpos]
    have := List.sum_le_card_nsmul l (s.getD (s.length - 1) 0)
      (fun x hx => mem_le_sorted_last hsort (hperm.mem_iff.mpr hx))
    rw [nsmul_eq_mul] at this
    linarith
  exact ⟨hmed_lo, hmed_hi, hmean_lo, hmean_hi⟩

/-- Witness for C5: the bounds hold for the concrete delta list `[1, 2, 3]`. -/
theorem calculateStats_bounds_witness :
    (calculateStats ([1, 2, 3] : List ℝ)).min ≤ (calculateStats ([1, 2, 3] : List ℝ)).median ∧
    (calculateStats ([1, 2, 3] : List ℝ)).median ≤ (calculateStats ([1, 2, 3] : List ℝ)).max ∧
    (calculateStats ([1, 2, 3] : List ℝ)).min ≤ (calculateStats ([1, 2, 3] : List ℝ)).mean ∧
    (calculateStats ([1, 2, 3] : List ℝ)).mean ≤ (calculateStats ([1, 2, 3] : List ℝ)).max :=
  calculateStats_bounds [1, 2, 3] (by simp)

/-- C9: `calculateStats` sorts its argument array in place: for every
non-empty input, the caller's list after the call (`calculateStatsPost`) is a
permutation of the input arranged in ascending order; and the aggregator is
not free of side effects on its input (there is an input it changes). -/
theorem calculateStats_sorts_in_place :
    (∀ l : List ℝ, l ≠ [] →
      (calculateStatsPost l).Perm l ∧ (calculateStatsPost l).Sorted (· ≤ ·)) ∧
    ∃ l : List ℝ, calculateStatsPost l ≠ l := by
  constructor
  · intro l hne
    have h : calculateStatsPost l = l.insertionSort (· ≤ ·) := by
      simp [calculateStatsPost, hne]
    rw [h]
    exact ⟨List.perm_insertionSort _ l, List.sorted_insertionSort _ l⟩
  · exact ⟨[2, 1], by norm_num [calculateStatsPost, List.insertionSort, List.orderedInsert]⟩

/-- Witness for C9: the post-call array for the input `[2, 1]` is its sorted
permutation. -/
theorem calculateStats_sorts_in_place_witness :
    (calculateStatsPost ([2, 1] : List ℝ)).Perm [2, 1] ∧
    (calculateStatsPost ([2, 1] : List ℝ)).Sorted (· ≤ ·) :=
  calculateStats_sorts_in_place.1 [2, 1] (by simp)

/-- Embedding of `calculateCornerDistance(corner1, corner2)`:

```js
const dx = corner1[0] - corner2[0];
const dy = corner1[1] - corner2[1];
return Math.sqrt(dx * dx + dy * dy);
```

Element access is Option-returning, so an out-of-bounds coordinate access is
an explicit `none` instead of a defined result. -/
noncomputable def calculateCornerDistance (corner1 corner2 : List ℝ) : Option ℝ := do
  let x1 ← corner1[0]?
  let x2 ← corner2[0]?
  let y1 ← corner1[1]?
  let y2 ← corner2[1]?
  pure (Real.sqrt ((x1 - x2) * (x1 - x2) + (y1 - y2) * (y1 - y2)))

/-- One iteration of the inner loop of `calculateDeltas`: the corner access
`gtTag.corners[i]` / `detTag.corners[i]` followed by the call to
`calculateCornerDistance`. -/
noncomputable def cornerPairDelta (gtTag detTag : Detection) (i : Nat) : Option ℝ := do
  let c1 ← gtTag.corners[i]?
  let c2 ← detTag.corners[i]?
  calculateCornerDistance c1 c2

/-- The inner loop `for (let i = 0; i < 4; i++)` of `calculateDeltas`,
unrolled: the four per-corner deltas pushed for one matched marker pair. -/
noncomputable def cornerDeltas (gtTag detTag : Detection) : Option (List ℝ) := do
  let d0 ← cornerPairDelta gtTag detTag 0
  let d1 ← cornerPairDelta gtTag detTag 1
  let d2 ← cornerPairDelta gtTag detTag 2
  let d3 ← cornerPairDelta gtTag detTag 3
  pure [d0, d1, d2, d3]

/-- Embedding of `calculateDeltas(groundTruth, detection)`:

```js
const deltas = [];
for (const gtTag of groundTruth) {
  const detTag = detection.find((d) => d.id === gtTag.id);
  if (detTag) {
    for (let i = 0; i < 4; i++) {
      deltas.push(calculateCornerDistance(gtTag.corners[i], detTag.corners[i]));
    }
  }
}
return deltas;
```

`Array.prototype.find` is `List.find?` (first match in iteration order). -/
noncomputable def calculateDeltas : List Detection → List Detection → Option (List ℝ)
  | [], _ => some []
  | gtTag :: rest, detection =>
    match detection.find? (fun d => d.id == gtTag.id) with
    | some detTag => do
        let ds ← cornerDeltas gtTag detTag
        let tail ← calculateDeltas rest detection
        pure (ds ++ tail)
    | none => calculateDeltas rest detection

/-- A detection is well formed when it has exactly 4 corners, each a pair of
two coordinates. -/
def WellFormed (d : Detection) : Prop :=
  d.corners.length = 4 ∧ ∀ c ∈ d.corners, c.length = 2

/-- The Euclidean distance between two corner points given as coordinate
lists, written from the spec's description of the corner metric (distance
between the two (x, y) pairs). -/
noncomputable def euclideanCornerDistance (c1 c2 : List ℝ) : ℝ :=
  Real.sqrt ((c1.getD 0 0 - c2.getD 0 0) ^ 2 + (c1.getD 1 0 - c2.getD 1 0) ^ 2)

/-- The delta list as the spec describes it (§4.2, §8): for each reference
marker whose identifier is present in both sets, the Euclidean distances of
the 4 corresponding corner pairs in corner order, appended in reference
iteration order; reference markers whose identifier is absent from the
comparison set contribute nothing. -/
noncomputable def specDeltas (groundTruth detection : List Detection) : List ℝ :=
  groundTruth.flatMap (fun g =>
    if (detection.map Detection.id).contains g.id then
      match detection.find? (fun d => d.id == g.id) with
      | some d => (List.range 4).map (fun i =>
          euclideanCornerDistance (g.corners.getD i []) (d.corners.getD i []))
      | none => []
    else [])

lemma calculateCornerDistance_eq_euclidean (c1 c2 : List ℝ)
    (h1 : c1.length = 2) (h2 : c2.length = 2) :
    calculateCornerDistance c1 c2 = some (euclideanCornerDistance c1 c2) := by
  obtain ⟨a, b, rfl⟩ := List.length_eq_two.mp h1
  obtain ⟨c, d, rfl⟩ := List.length_eq_two.mp h2
  simp only [calculateCornerDistance, euclideanCornerDistance]
  norm_num
  ring_nf

lemma cornerPairDelta_eq_euclidean (g d : Detection) (hg : WellFormed g)
    (hd : WellFormed d) {i : Nat} (hi : i < 4) :
    cornerPairDelta g d i =
      some (euclideanCornerDistance (g.corners.getD i []) (d.corners.getD i [])) := by
  obtain ⟨hg4, hg2⟩ := hg
  obtain ⟨hd4, hd2⟩ := hd
  have hgi : i < g.corners.length := by omega
  have hdi : i < d.corners.length := by omega
  rw [cornerPairDelta, List.getElem?_eq_getElem hgi, List.getElem?_eq_getElem hdi]
  simp only [Option.bind_eq_bind, Option.some_bind]
  rw [calculateCornerDistance_eq_euclidean _ _
    (hg2 _ (List.getElem_mem hgi)) (hd2 _ (List.getElem_mem hdi))]
  rw [list_getD_eq_get hgi, list_getD_eq_get hdi]
  simp [List.get_eq_getElem]

lemma cornerDeltas_eq_euclidean (g d : Detection) (hg : WellFormed g)
    (hd : WellFormed d) :
    cornerDeltas g d = some ((List.range 4).map (fun i =>
      euclideanCornerDistance (g.corners.getD i []) (d.corners.getD i []))) := by
  rw [cornerDeltas,
    cornerPairDelta_eq_euclidean g d hg hd (by norm_num : (0:Nat) < 4),
    cornerPairDelta_eq_euclidean g d hg hd (by norm_num : (1:Nat) < 4),
    cornerPairDelta_eq_euclidean g d hg hd (by norm_num : (2:Nat) < 4),
    cornerPairDelta_eq_euclidean g d hg hd (by norm_num : (3:Nat) < 4)]
  simp [List.range_succ]

lemma calculateDeltas_eq_specDeltas (groundTruth detection : List Detection)
    (hgt : ∀ d ∈ groundTruth, WellFormed d)
    (hdet : ∀ d ∈ detection, WellFormed d) :
    calculateDeltas groundTruth detection = some (specDeltas groundTruth detection) := by
  induction groundTruth with
  | nil => simp [calculateDeltas, specDeltas]
  | cons g rest ih =>
    have hg : WellFormed g := hgt g (List.mem_cons_self g rest)
    have hrest : ∀ d ∈ rest, WellFormed d := fun d hd => hgt d (List.mem_cons_of_mem g hd)
    rw [calculateDeltas]
    cases hfind : detection.find? (fun d => d.id == g.id) with
    | none =>
      have hnotmem : g.id ∉ detection.map Detection.id := by
        intro hmem
        obtain ⟨d, hd, hid⟩ := List.mem_map.mp hmem
        have := List.find?_eq_none.mp hfind d hd
        simp [hid] at this
      rw [ih hrest]
      simp [specDeltas, hfind, hnotmem]
    | some d =>
      have hmemd : d ∈ detection := List.mem_of_find?_eq_some hfind
      have hd : WellFormed d := hdet d hmemd
      have hid : d.id = g.id := by
        have := List.find?_some hfind
        simpa using this
      have hmem : g.id ∈ detection.map Detection.id :=
        List.mem_map.mpr ⟨d, hmemd, hid⟩
      show (do
          let ds ← cornerDeltas g d
          let tail ← calculateDeltas rest detection
          pure (ds ++ tail)) = some (specDeltas (g :: rest) detection)
      rw [cornerDeltas_eq_euclidean g d hg hd, ih hrest]
      simp only [Option.bind_eq_bind, Option.some_bind, specDeltas, List.flatMap_cons, hfind]
      simp
      rw [if_pos (⟨d, hmemd, hid⟩ : ∃ a ∈ detection, a.id = g.id)]

lemma specDeltas_cons (g : Detection) (rest detection : List Detection) :
    specDeltas (g :: rest) detection =
      (if (detection.map Detection.id).contains g.id then
        match detection.find? (fun d => d.id == g.id) with
        | some d => (List.range 4).map (fun i =>
            euclideanCornerDistance (g.corners.getD i []) (d.corners.getD i []))
        | none => []
      else []) ++ specDeltas rest detection := rfl

lemma specDeltas_length (groundTruth detection : List Detection) :
    (specDeltas groundTruth detection).length =
      4 * ((groundTruth.map Detection.id).filter
        (fun i => (detection.map Detection.id).contains i)).length := by
  induction groundTruth with
  | nil => simp [specDeltas]
  | cons g rest ih =>
    rw [specDeltas_cons, List.length_append, ih, List.map_cons, List.filter_cons]
    cases hc : (detection.map Detection.id).contains g.id with
    | false => simp [hc]
    | true =>
      have hmem : g.id ∈ detection.map Detection.id := by simpa using hc
      obtain ⟨d1, hd1, hid1⟩ := List.mem_map.mp hmem
      have hfindsome : (detection.find? (fun d => d.id == g.id)).isSome := by
        rw [List.find?_isSome]
        exact ⟨d1, hd1, by simp [hid1]⟩
      obtain ⟨d0, hd0⟩ := Option.isSome_iff_exists.mp hfindsome
      simp [hc, hd0]
      omega

lemma filter_contains_length_eq_card_inter (A B : List Int) (hA : A.Nodup) :
    (A.filter (fun i => B.contains i)).length = (A.toFinset ∩ B.toFinset).card := by
  classical
  rw [← List.toFinset_card_of_nodup (hA.filter _), List.toFinset_filter]
  congr 1
  rw [← Finset.filter_mem_eq_inter]
  ext x
  simp

/-- C1: for well-formed detection sets (every detection has exactly 4
corners, identifiers unique within each set), `calculateDeltas` succeeds and
returns exactly the spec's delta list: 4 entries (the Euclidean distances of
the 4 corresponding corner pairs, in corner order) for each identifier
present in both sets, appended in reference iteration order, and no entries
for markers present only in the reference set; its length is 4 times the
number of identifiers common to both sets. -/
theorem calculateDeltas_matched_corners (groundTruth detection : List Detection)
    (hgt : ∀ d ∈ groundTruth, WellFormed d)
    (hdet : ∀ d ∈ detection, WellFormed d)
    (hgtu : (groundTruth.map Detection.id).Nodup)
    (_hdetu : (detection.map Detection.id).Nodup) :
    calculateDeltas groundTruth detection = some (specDeltas groundTruth detection) ∧
    (specDeltas groundTruth detection).length =
      4 * ((groundTruth.map Detection.id).toFinset ∩
        (detection.map Detection.id).toFinset).card := by
  refine ⟨calculateDeltas_eq_specDeltas groundTruth detection hgt hdet, ?_⟩
  rw [specDeltas_length,
    filter_contains_length_eq_card_inter (groundTruth.map Detection.id)
      (detection.map Detection.id) hgtu]

/-- Reference corners used by the concrete witnesses: the unit square. -/
def sampleCorners : List (List ℝ) := [[0, 0], [1, 0], [1, 1], [0, 1]]

/-- Concrete reference detection set for the witnesses: markers 1 and 2. -/
def gtSample : List Detection := [⟨1, sampleCorners⟩, ⟨2, sampleCorners⟩]

/-- Concrete comparison detection set for the witnesses: marker 1 only. -/
def detSample : List Detection := [⟨1, sampleCorners⟩]

/-- Witness for C1: instantiating the theorem at the concrete sets with
markers {1, 2} and {1}. -/
theorem calculateDeltas_matched_corners_witness :
    calculateDeltas gtSample detSample = some (specDeltas gtSample detSample) ∧
    (specDeltas gtSample detSample).length =
      4 * ((gtSample.map Detection.id).toFinset ∩
        (detSample.map Detection.id).toFinset).card :=
  calculateDeltas_matched_corners gtSample detSample
    (by simp [gtSample, WellFormed, sampleCorners])
    (by simp [detSample, WellFormed, sampleCorners])
    (by simp [gtSample])
    (by simp [detSample])

/-- C10: under the precondition that every detection in both input sets has
exactly 4 corners, each a pair of two coordinates, every Option-returning
corner access performed by `calculateDeltas` and `calculateCornerDistance`
is within bounds — the out-of-bounds `none` branch is unreachable — so
`calculateDeltas` is defined (`isSome`) for all such inputs. -/
theorem calculateDeltas_total_on_wellformed (groundTruth detection : List Detection)
    (hgt : ∀ d ∈ groundTruth, WellFormed d)
    (hdet : ∀ d ∈ detection, WellFormed d) :
    (calculateDeltas groundTruth detection).isSome := by
  rw [calculateDeltas_eq_specDeltas groundTruth detection hgt hdet]
  rfl

/-- Witness for C10: the delta computation is defined on the concrete sets. -/
theorem calculateDeltas_total_on_wellformed_witness :
    (calculateDeltas gtSample detSample).isSome :=
  calculateDeltas_total_on_wellformed gtSample detSample
    (by simp [gtSample, WellFormed, sampleCorners])
    (by simp [detSample, WellFormed, sampleCorners])

/-- Embedding of the missing-marker count computed inline by `main` for one
(file, quality) pair:

```js
const detectedIds = new Set(detection.map((d) => d.id));
const missingMarkers = groundTruth.filter((gt) => !detectedIds.has(gt.id)).length;
```

`Set.has` on the set built from the id array is membership in that array. -/
def missingMarkersCount (groundTruth detection : List Detection) : Nat :=
  (groundTruth.filter (fun gt => !(detection.map Detection.id).contains gt.id)).length

/-- C2: for detection sets with unique identifiers, the per-pair
missing-marker count equals |reference identifiers| − |reference identifiers
∩ comparison identifiers|. -/
theorem missingMarkers_eq_card_sub_inter (groundTruth detection : List Detection)
    (hgtu : (groundTruth.map Detection.id).Nodup)
    (_hdetu : (detection.map Detection.id).Nodup) :
    missingMarkersCount groundTruth detection =
      (groundTruth.map Detection.id).toFinset.card -
        ((groundTruth.map Detection.id).toFinset ∩
          (detection.map Detection.id).toFinset).card := by
  rw [missingMarkersCount]
  have hmap : (groundTruth.filter
      (fun gt => !(detection.map Detection.id).contains gt.id)).length =
      ((groundTruth.map Detection.id).filter
        (fun i => !(detection.map Detection.id).contains i)).length := by
    rw [← List.countP_eq_length_filter, ← List.countP_eq_length_filter, List.countP_map]
    rfl
  rw [hmap, ← filter_contains_length_eq_card_inter (groundTruth.map Detection.id)
    (detection.map Detection.id) hgtu,
    List.toFinset_card_of_nodup hgtu]
  have hsplit := List.length_eq_countP_add_countP
    (fun i => (detection.map Detection.id).contains i) (groundTruth.map Detection.id)
  have heq : ((groundTruth.map Detection.id).countP
      (fun a => decide ¬((detection.map Detection.id).contains a = true))) =
      ((groundTruth.map Detection.id).countP
        (fun i => !(detection.map Detection.id).contains i)) := by
    apply List.countP_congr
    intro a _
    cases h : (detection.map Detection.id).contains a <;> simp [h]
  rw [← List.countP_eq_length_filter, ← List.countP_eq_length_filter]
  omega

/-- Witness for C2: at the concrete sets, one of the two reference markers is
missing from the comparison, so the count is 2 − 1 = 1. -/
theorem missingMarkers_eq_card_sub_inter_witness :
    missingMarkersCount gtSample detSample =
      (gtSample.map Detection.id).toFinset.card -
        ((gtSample.map Detection.id).toFinset ∩
          (detSample.map Detection.id).toFinset).card :=
  missingMarkers_eq_card_sub_inter gtSample detSample
    (by simp [gtSample]) (by simp [detSample])

/-- The fixed, application-defined list of JPEG quality levels
(`QUALITY_VALUES = [0.1, ..., 0.9]`), modelled as rationals. -/
def QUALITY_VALUES : List ℚ :=
  [1/10, 2/10, 3/10, 4/10, 5/10, 6/10, 7/10, 8/10, 9/10]

/-- Which of the two temporary images of one (file, quality) iteration a
file-system operation refers to: the ground-truth PNG or the compressed
JPEG. -/
inductive TempKind
  | png
  | jpeg

/-- Oracles for the external collaborators of the driver: the directory
listing (`fs.readdir(rawDir)`), the detection adapter run on the ground-truth
PNG of a file and on the JPEG of a (file, quality) pair (RAW conversion is
folded into these oracles, since the claims under verification do not
concern conversion failures), and the success of each `fs.unlink` of a
temporary image. -/
structure Env where
  files : List String
  detectRef : String → List Detection
  detectCmp : String → ℚ → List Detection
  unlinkOk : TempKind → String → ℚ → Bool

/-- One `Quality result` row: `{ quality, ...stats, missingMarkers }`. -/
structure QualityResult where
  quality : ℚ
  stats : Stats ℝ
  missingMarkers : Nat

/-- The body of the inner `for (const arwFile of arwFiles)` loop of `main`
for one file at one quality: detect on the ground-truth image, detect on the
compressed image, count missing markers, compute the deltas, and (unless
`--preserve`) delete the two temporary images — `await fs.unlink(pngPath)`
then `await fs.unlink(jpegPath)`.  A rejected `unlink` throws, which
propagates out of the loop (there is no local try/catch), modelled as
`Except.error`. -/
noncomputable def processFile (env : Env) (preserveFiles : Bool) (quality : ℚ)
    (arwFile : String) : Except String (List ℝ × Nat) :=
  let groundTruth := env.detectRef arwFile
  let detection := env.detectCmp arwFile quality
  let missingMarkers := missingMarkersCount groundTruth detection
  match calculateDeltas groundTruth detection with
  | none => Except.error "TypeError"
  | some deltas =>
    if preserveFiles then Except.ok (deltas, missingMarkers)
    else if !(env.unlinkOk TempKind.png arwFile quality) then Except.error "unlink"
    else if !(env.unlinkOk TempKind.jpeg arwFile quality) then Except.error "unlink"
    else Except.ok (deltas, missingMarkers)

/-- The inner file loop of `main` over a list of files, accumulating the
per-quality pooled delta list (`allDeltas.push(...deltas)`) and the
missing-marker total (`totalMissingMarkers += missingMarkers`); the first
thrown error aborts the loop. -/
noncomputable def processFiles (env : Env) (preserveFiles : Bool) (quality : ℚ) :
    List String → Except String (List ℝ × Nat)
  | [] => Except.ok ([], 0)
  | f :: rest => do
    let (deltas, missingMarkers) ← processFile env preserveFiles quality f
    let (restDeltas, restMissing) ← processFiles env preserveFiles quality rest
    Except.ok (deltas ++ restDeltas, missingMarkers + restMissing)

/-- One iteration of the outer `for (const quality of QUALITY_VALUES)` loop:
process every file, then aggregate the pooled deltas into one
`Quality result` record. -/
noncomputable def processQuality (env : Env) (preserveFiles : Bool)
    (arwFiles : List String) (quality : ℚ) : Except String QualityResult := do
  let (allDeltas, totalMissingMarkers) ← processFiles env preserveFiles quality arwFiles
  Except.ok ⟨quality, calculateStats allDeltas, totalMissingMarkers⟩

/-- The filename test `file.toLowerCase().endsWith(".arw")`, modelled on the
character list of the string (per-character ASCII lowercasing followed by the
suffix test), which keeps it evaluable. -/
def lowerEndsWithArw (file : String) : Bool :=
  ".arw".data.isSuffixOf (file.data.map Char.toLower)

/-- The RAW file discovery and subset selection of `main`:

```js
let arwFiles = (await fs.readdir(rawDir)).filter((file) =>
  file.toLowerCase().endsWith(".arw"));
if (subsetSize && subsetSize > 0 && subsetSize < arwFiles.length) {
  arwFiles = arwFiles.slice(0, subsetSize);
}
```

`subsetSize` is the already-parsed first positional argument (`null` when
absent or not a number); the JavaScript truthiness test `subsetSize &&` is
the `n ≠ 0` conjunct. -/
def selectArwFiles (files : List String) (subsetSize : Option Int) : List String :=
  let arwFiles := files.filter lowerEndsWithArw
  match subsetSize with
  | some n =>
    if n ≠ 0 ∧ 0 < n ∧ n < (arwFiles.length : Int) then arwFiles.take n.toNat
    else arwFiles
  | none => arwFiles

/-- The processing phase of `main` inside the top-level `try`: select the
files once, then run every quality level over that same selected list.  The
`Except.ok` value is the list of summary rows (the summary table); an
`Except.error` is an exception reaching the top-level `catch`, which logs
the error and calls `process.exit(1)` — no summary is produced. -/
noncomputable def runMain (env : Env) (preserveFiles : Bool) (subsetSize : Option Int) :
    Except String (List QualityResult) :=
  QUALITY_VALUES.mapM (processQuality env preserveFiles (selectArwFiles env.files subsetSize))

/-- Resolution of the source directory before `main` is invoked:

```js
const rawDir = nonFlagArgs.length > 1 ? nonFlagArgs[1] : (process.env.RAW_DIR || null);
```

with JavaScript falsiness: a missing or empty environment value yields
`null`, and the subsequent `if (!rawDir)` check also rejects an empty
string. -/
def resolveRawDir (nonFlagArgs : List String) (envRawDir : Option String) : Option String :=
  let rawDir : Option String :=
    if 1 < nonFlagArgs.length then nonFlagArgs[1]?
    else
      match envRawDir with
      | some s => if s = "" then none else some s
      | none => none
  match rawDir with
  | some s => if s = "" then none else some s
  | none => none

/-- Observable outcome of one program run.  `earlyExit code` is the
`if (!rawDir) { console.error(...); process.exit(1); }` branch taken before
`main()` performs any conversion, detection or file-system work on inputs;
`completed` is a full run with its summary table; `failed code` is the
top-level `catch`, which logs the error and calls `process.exit(code)`. -/
inductive ProgramResult
  | earlyExit (code : Nat)
  | completed (results : List QualityResult)
  | failed (code : Nat)

/-- The whole program: the raw-directory guard followed by `main()`. -/
noncomputable def runProgram (nonFlagArgs : List String) (envRawDir : Option String)
    (env : Env) (preserveFiles : Bool) (subsetSize : Option Int) : ProgramResult :=
  match resolveRawDir nonFlagArgs envRawDir with
  | none => ProgramResult.earlyExit 1
  | some _ =>
    match runMain env preserveFiles subsetSize with
    | Except.ok results => ProgramResult.completed results
    | Except.error _ => ProgramResult.failed 1

/-- C7: if no source directory is given as the second positional argument
and none is available from the environment configuration (unset, or empty —
JavaScript falsiness), the program exits early with status 1 (non-zero).
The result is the `earlyExit` branch for every oracle environment, subset
size and flag value, i.e. it is reached before any conversion, detection or
file-system work on inputs. -/
theorem missing_rawdir_exits_nonzero (nonFlagArgs : List String)
    (envRawDir : Option String) (env : Env) (preserveFiles : Bool)
    (subsetSize : Option Int) (hargs : nonFlagArgs.length ≤ 1)
    (henv : envRawDir = none ∨ envRawDir = some "") :
    runProgram nonFlagArgs envRawDir env preserveFiles subsetSize =
      ProgramResult.earlyExit 1 ∧ (1 : Nat) ≠ 0 := by
  have hres : resolveRawDir nonFlagArgs envRawDir = none := by
    rcases henv with h | h <;> simp [resolveRawDir, h, Nat.not_lt.mpr hargs]
  refine ⟨?_, by decide⟩
  rw [runProgram, hres]

/-- Concrete oracle environment for the witnesses: three RAW files, empty
detection sets, always-succeeding deletions. -/
def sampleEnv : Env where
  files := ["a.arw", "b.arw", "c.arw"]
  detectRef := fun _ => []
  detectCmp := fun _ _ => []
  unlinkOk := fun _ _ _ => true

/-- Witness for C7: with no positional directory argument and no environment
value, the concrete run exits early with status 1. -/
theorem missing_rawdir_exits_nonzero_witness :
    runProgram [] none sampleEnv false none = ProgramResult.earlyExit 1 ∧ (1 : Nat) ≠ 0 :=
  missing_rawdir_exits_nonzero [] none sampleEnv false none (by decide) (Or.inl rfl)

/-- C8: when the first positional argument is a positive integer `n` that is
strictly less than the number of discovered RAW files, exactly the first `n`
files in directory-listing order are selected (and their number is `n`);
when `n` is at least the file count, all files are selected.  In either case
`runMain` runs every quality level over this same selected list. -/
theorem subset_selection_correct (env : Env) (preserveFiles : Bool) (n : Int)
    (hn : 0 < n) :
    ((n < ((env.files.filter lowerEndsWithArw).length : Int) →
      selectArwFiles env.files (some n) =
        (env.files.filter lowerEndsWithArw).take n.toNat ∧
      (selectArwFiles env.files (some n)).length = n.toNat) ∧
     (((env.files.filter lowerEndsWithArw).length : Int) ≤ n →
      selectArwFiles env.files (some n) =
        env.files.filter lowerEndsWithArw)) ∧
    runMain env preserveFiles (some n) =
      QUALITY_VALUES.mapM
        (processQuality env preserveFiles (selectArwFiles env.files (some n))) := by
  set L := env.files.filter lowerEndsWithArw with hL
  refine ⟨⟨?_, ?_⟩, rfl⟩
  · intro hlt
    have hcond : n ≠ 0 ∧ 0 < n ∧ n < (L.length : Int) := ⟨by omega, hn, hlt⟩
    have hsel : selectArwFiles env.files (some n) = L.take n.toNat := by
      rw [selectArwFiles, ← hL, if_pos hcond]
    refine ⟨hsel, ?_⟩
    rw [hsel, List.length_take]
    omega
  · intro hge
    have hcond : ¬(n ≠ 0 ∧ 0 < n ∧ n < (L.length : Int)) := by
      intro h
      omega
    rw [selectArwFiles, ← hL, if_neg hcond]

/-- Witness for C8: selecting a subset of size 2 from the three discovered
files of the concrete environment. -/
theorem subset_selection_correct_witness :
    (((2 : Int) < ((sampleEnv.files.filter lowerEndsWithArw).length : Int) →
      selectArwFiles sampleEnv.files (some 2) =
        (sampleEnv.files.filter lowerEndsWithArw).take (2 : Int).toNat ∧
      (selectArwFiles sampleEnv.files (some 2)).length = (2 : Int).toNat) ∧
     (((sampleEnv.files.filter lowerEndsWithArw).length : Int) ≤ 2 →
      selectArwFiles sampleEnv.files (some 2) =
        sampleEnv.files.filter lowerEndsWithArw)) ∧
    runMain sampleEnv false (some 2) =
      QUALITY_VALUES.mapM
        (processQuality sampleEnv false (selectArwFiles sampleEnv.files (some 2))) :=
  subset_selection_correct sampleEnv false 2 (by decide)

lemma processFile_unlink_error (env : Env) (q : ℚ) (f : String)
    (hgt : ∀ d ∈ env.detectRef f, WellFormed d)
    (hcmp : ∀ d ∈ env.detectCmp f q, WellFormed d)
    (hunlink : env.unlinkOk TempKind.png f q = false) :
    processFile env false q f = Except.error "unlink" := by
  rw [processFile, calculateDeltas_eq_specDeltas _ _ hgt hcmp]
  simp [hunlink]

lemma processFiles_head_error (env : Env) (q : ℚ) (f : String) (rest : List String)
    (herr : processFile env false q f = Except.error "unlink") :
    processFiles env false q (f :: rest) = Except.error "unlink" := by
  rw [processFiles, herr]
  rfl

lemma processQuality_error (env : Env) (files : List String) (q : ℚ)
    (herr : processFiles env false q files = Except.error "unlink") :
    processQuality env false files q = Except.error "unlink" := by
  rw [processQuality, herr]
  rfl

lemma runMain_error_of_png_unlink_failure (env : Env) (subsetSize : Option Int)
    (f : String) (rest : List String)
    (hsel : selectArwFiles env.files subsetSize = f :: rest)
    (hgt : ∀ d ∈ env.detectRef f, WellFormed d)
    (hcmp : ∀ d ∈ env.detectCmp f (1/10 : ℚ), WellFormed d)
    (hunlink : env.unlinkOk TempKind.png f (1/10 : ℚ) = false) :
    runMain env false subsetSize = Except.error "unlink" := by
  have hpq : processQuality env false (f :: rest) (1/10 : ℚ) = Except.error "unlink" :=
    processQuality_error env (f :: rest) (1/10)
      (processFiles_head_error env (1/10) f rest
        (processFile_unlink_error env (1/10) f hgt hcmp hunlink))
  rw [runMain, hsel]
  rw [show QUALITY_VALUES = (1/10 : ℚ) :: [2/10, 3/10, 4/10, 5/10, 6/10, 7/10, 8/10, 9/10] from rfl]
  rw [List.mapM_cons, hpq]
  rfl

/-- Oracle environment exhibiting a cleanup failure: one RAW file whose
ground-truth PNG cannot be deleted after processing; detection finds no
markers in either image. -/
def failingUnlinkEnv : Env where
  files := ["a.arw"]
  detectRef := fun _ => []
  detectCmp := fun _ _ => []
  unlinkOk := fun kind _ _ =>
    match kind with
    | TempKind.png => false
    | TempKind.jpeg => true

lemma failingUnlinkEnv_sel : selectArwFiles failingUnlinkEnv.files (some 5) = ["a.arw"] := rfl

/-- Counterexample for C6: in the run over `failingUnlinkEnv` (with a
resolvable source directory), deleting the ground-truth temporary image of
the only file fails, and — contrary to the claim — the run does not continue
to a summary: it ends in the top-level catch with exit status 1, and no
summary table is produced. -/
theorem cleanup_failure_aborts_counterexample :
    runProgram ["5", "/raw"] none failingUnlinkEnv false (some 5) = ProgramResult.failed 1 ∧
    ∀ results, runProgram ["5", "/raw"] none failingUnlinkEnv false (some 5) ≠
      ProgramResult.completed results := by
  have hrm : runMain failingUnlinkEnv false (some 5) = Except.error "unlink" :=
    runMain_error_of_png_unlink_failure failingUnlinkEnv (some 5) "a.arw" []
      failingUnlinkEnv_sel (by simp [failingUnlinkEnv]) (by simp [failingUnlinkEnv]) rfl
  have h1 : runProgram ["5", "/raw"] none failingUnlinkEnv false (some 5) =
      ProgramResult.failed 1 := by
    rw [runProgram, show resolveRawDir ["5", "/raw"] none = some "/raw" from rfl, hrm]
  exact ⟨h1, fun results h => by rw [h1] at h; cases h⟩

lemma processFile_ok_unlinks (env : Env) (q : ℚ) (f : String) (y : List ℝ × Nat)
    (hok : processFile env false q f = Except.ok y) :
    env.unlinkOk TempKind.png f q = true ∧ env.unlinkOk TempKind.jpeg f q = true := by
  rw [processFile] at hok
  cases hcd : calculateDeltas (env.detectRef f) (env.detectCmp f q) with
  | none => rw [hcd] at hok; cases hok
  | some ds =>
    rw [hcd] at hok
    by_cases hp : env.unlinkOk TempKind.png f q
    · by_cases hj : env.unlinkOk TempKind.jpeg f q
      · exact ⟨hp, hj⟩
      · simp [hp, hj] at hok
    · simp [hp] at hok

lemma processFiles_ok_of_mem (env : Env) (q : ℚ) (files : List String)
    (x : List ℝ × Nat) (hok : processFiles env false q files = Except.ok x) :
    ∀ f ∈ files, ∃ y, processFile env false q f = Except.ok y := by
  induction files generalizing x with
  | nil => intro f hf; cases hf
  | cons g rest ih =>
    intro f hf
    rw [processFiles] at hok
    cases hpf : processFile env false q g with
    | error e => rw [hpf] at hok; cases hok
    | ok y =>
      rw [hpf] at hok
      cases hrest : processFiles env false q rest with
      | error e =>
        rw [hrest] at hok
        cases y with
        | mk deltas missing => cases hok
      | ok z =>
        rcases List.mem_cons.mp hf with rfl | hf
        · exact ⟨y, hpf⟩
        · exact ih z hrest f hf

lemma processQuality_ok_files (env : Env) (files : List String) (q : ℚ)
    (r : QualityResult) (hok : processQuality env false files q = Except.ok r) :
    ∃ x, processFiles env false q files = Except.ok x := by
  rw [processQuality] at hok
  cases h : processFiles env false q files with
  | error e => rw [h] at hok; cases hok
  | ok x => exact ⟨x, rfl⟩

lemma mapM_ok_of_mem {α β : Type} (g : α → Except String β) (l : List α) (rs : List β)
    (hok : l.mapM g = Except.ok rs) : ∀ a ∈ l, ∃ r, g a = Except.ok r := by
  induction l generalizing rs with
  | nil => intro a ha; cases ha
  | cons b rest ih =>
    intro a ha
    rw [List.mapM_cons] at hok
    cases hgb : g b with
    | error e => rw [hgb] at hok; cases hok
    | ok r =>
      rw [hgb] at hok
      cases hrest : rest.mapM g with
      | error e => rw [hrest] at hok; cases hok
      | ok bs =>
        rcases List.mem_cons.mp ha with rfl | ha
        · exact ⟨r, hgb⟩
        · exact ih bs hrest a ha

/-- C6 (amended): if deleting one of the two temporary images (ground-truth
PNG or compressed JPEG) of any selected file at any quality level fails
during a run without `--preserve`, the rejection propagates — there is no
local try/catch around the `unlink` calls — to the top-level catch, which
logs the error and exits with status 1: the run is aborted and the summary
is not produced.  Proved by contraposition: a completed run performs, and
therefore requires the success of, both deletions for every selected file at
every quality level. -/
theorem cleanup_failure_logged_and_aborts (nonFlagArgs : List String)
    (envRawDir : Option String) (env : Env) (subsetSize : Option Int)
    (q : ℚ) (f : String) (k : TempKind) (dir : String)
    (hdir : resolveRawDir nonFlagArgs envRawDir = some dir)
    (hq : q ∈ QUALITY_VALUES)
    (hf : f ∈ selectArwFiles env.files subsetSize)
    (hunlink : env.unlinkOk k f q = false) :
    runProgram nonFlagArgs envRawDir env false subsetSize = ProgramResult.failed 1 ∧
    ∀ results, runProgram nonFlagArgs envRawDir env false subsetSize ≠
      ProgramResult.completed results := by
  have hnotok : ∀ results, runMain env false subsetSize ≠ Except.ok results := by
    intro results hok
    rw [runMain] at hok
    obtain ⟨r, hr⟩ := mapM_ok_of_mem _ _ _ hok q hq
    obtain ⟨x, hx⟩ := processQuality_ok_files env _ q r hr
    obtain ⟨y, hy⟩ := processFiles_ok_of_mem env q _ x hx f hf
    obtain ⟨hp, hj⟩ := processFile_ok_unlinks env q f y hy
    cases k
    · simp [hunlink] at hp
    · simp [hunlink] at hj
  obtain ⟨e, he⟩ : ∃ e, runMain env false subsetSize = Except.error e := by
    cases hrm : runMain env false subsetSize with
    | ok results => exact absurd hrm (hnotok results)
    | error e => exact ⟨e, rfl⟩
  have h1 : runProgram nonFlagArgs envRawDir env false subsetSize =
      ProgramResult.failed 1 := by
    rw [runProgram, hdir, he]
  exact ⟨h1, fun results h => by rw [h1] at h; cases h⟩

/-- Witness for the amended C6, instantiated at the concrete failing
environment: the PNG deletion of the selected file fails at the first
quality level. -/
theorem cleanup_failure_logged_and_aborts_witness :
    runProgram ["5", "/raw"] none failingUnlinkEnv false (some 5) = ProgramResult.failed 1 ∧
    ∀ results, runProgram ["5", "/raw"] none failingUnlinkEnv false (some 5) ≠
      ProgramResult.completed results :=
  cleanup_failure_logged_and_aborts ["5", "/raw"] none failingUnlinkEnv (some 5)
    (1/10) "a.arw" TempKind.png "/raw" rfl
    (List.mem_cons_self _ _)
    (by rw [failingUnlinkEnv_sel]; exact List.mem_cons_self _ _)
    rfl
